import Mathlib

/-!
Shallow embedding of the request-admission and parsing-orchestration core of
the transaction-scanner repository, together with theorems settling the
frozen claims about it.

Embedded source:
  * `lib/rate-limit.ts` — `checkRateLimit`, the in-memory sliding-window
    rate limiter (timestamps in milliseconds, modelled as `Int`; the per-IP
    `Map` with its `?? []` default is modelled as a total function
    `String → List Int`, `Map.set` as a pointwise update).
  * `app/api/parse-receipt/route.ts` — the `POST` orchestrator (config
    check, rate check, body validation, extraction call, sanitized errors).
  * `lib/openai.ts` — `parseReceiptText` (null-candidate handling and the
    ID-assigning enrichment step; the OpenAI network call is modelled as an
    oracle `UpstreamOutcome`, and `crypto.randomUUID()` as a supply
    `idGen : Nat → String` of freshly generated identifiers).
JavaScript strings are modelled as `List Char`; JSON values reachable from
`request.json()` as the inductive `JsVal`; JS truthiness and `typeof` by
`jsFalsy` / `jsTypeofString`; numeric JSON leaves carry `ℚ` (no arithmetic
is ever performed on them in the embedded code, they are only copied).
-/

/-- Maximum requests per window (`MAX_REQUESTS = 10` in `lib/rate-limit.ts`). -/
def MAX_REQUESTS : Nat := 10

/-- Window length in milliseconds (`WINDOW_MS = 60_000` in `lib/rate-limit.ts`). -/
def WINDOW_MS : Int := 60000

/-- Result of a rate-limit check (`RateLimitResult` in `lib/rate-limit.ts`). -/
structure RateLimitResult where
  allowed : Bool
  retryAfterMs : Option Int
deriving DecidableEq

/-- The `requestLog` map: IP address to array of request timestamps (ms).
`Map.get(ip) ?? []` becomes plain application; `Map.set` a pointwise update. -/
abbrev RateLog := String → List Int

/-- The empty request log (fresh module state / after `resetRateLimiter()`). -/
def emptyLog : RateLog := fun _ => []

/-- Embedding of `checkRateLimit` from `lib/rate-limit.ts`.  Returns the
`RateLimitResult` together with the request log after the call (the log is
written only on the admit path, exactly as in the source, where
`requestLog.set` is reached only after the early return).  `recentTimestamps[0]`
is `headD 0`; the default is unreachable in the reject branch since there the
list has length at least `MAX_REQUESTS > 0`. -/
def checkRateLimit (requestLog : RateLog) (ip : String) (now : Int) :
    RateLimitResult × RateLog :=
  let timestamps := requestLog ip
  let recentTimestamps := timestamps.filter (fun timestamp => now - timestamp < WINDOW_MS)
  if MAX_REQUESTS ≤ recentTimestamps.length then
    let oldestInWindow := recentTimestamps.headD 0
    let retryAfterMs := WINDOW_MS - (now - oldestInWindow)
    ({ allowed := false, retryAfterMs := some retryAfterMs }, requestLog)
  else
    ({ allowed := true, retryAfterMs := none },
      fun j => if j = ip then recentTimestamps ++ [now] else requestLog j)

/-- Whitespace for the purposes of `String.prototype.trim`: the full
ECMA-262 set, WhiteSpace (TAB, VT, FF, SPACE, NBSP U+00A0, ZWNBSP U+FEFF,
and every Unicode Space_Separator: U+1680, U+2000-U+200A, U+202F, U+205F,
U+3000) together with LineTerminator (LF, CR, LS U+2028, PS U+2029). -/
def jsWhitespace (c : Char) : Bool :=
  c = '\t' || c = '\n' || c = '\x0b' || c = '\x0c' || c = '\r' || c = ' ' ||
  c = '\u00A0' || c = '\u1680' || ('\u2000' ≤ c && c ≤ '\u200A') ||
  c = '\u2028' || c = '\u2029' || c = '\u202F' || c = '\u205F' ||
  c = '\u3000' || c = '\uFEFF'

/-- Embedding of `text.trim()`: drop ECMA-262 whitespace from both ends. -/
def jsTrim (s : List Char) : List Char :=
  ((s.dropWhile jsWhitespace).reverse.dropWhile jsWhitespace).reverse

/-- Contribution of one character to a JS string's `.length`: JS strings are
UTF-16, so an astral-plane character (code point at least 0x10000) counts as
two code units (a surrogate pair), every other character as one. -/
def utf16Units (c : Char) : Nat := if c.val < 0x10000 then 1 else 2

/-- Embedding of the JS `.length` of a string: its count of UTF-16 code
units. -/
def jsLength (s : List Char) : Nat := (s.map utf16Units).sum

/-- JSON-ish values reachable as `body` from `await request.json()`, plus
`undefined` (the value of an absent property under `body?.text`). -/
inductive JsVal where
  | undef : JsVal
  | null : JsVal
  | bool (b : Bool) : JsVal
  | num (q : ℚ) : JsVal
  | str (s : List Char) : JsVal
  | obj (fields : List (String × JsVal)) : JsVal
  | arr (elems : List JsVal) : JsVal

/-- JS falsiness (`!text`): `undefined`, `null`, `false`, `0` and `""` are
falsy; objects and arrays are always truthy. -/
def jsFalsy : JsVal → Bool
  | JsVal.undef => true
  | JsVal.null => true
  | JsVal.bool b => !b
  | JsVal.num q => q = 0
  | JsVal.str s => s.isEmpty
  | JsVal.obj _ => false
  | JsVal.arr _ => false

/-- Whether `typeof v === "string"`. -/
def jsTypeofString : JsVal → Bool
  | JsVal.str _ => true
  | _ => false

/-- Embedding of `body?.text`: property access with optional chaining;
absent properties and non-object bases yield `undefined`. -/
def getField : JsVal → String → JsVal
  | JsVal.obj fields, key =>
      match fields.lookup key with
      | some v => v
      | none => JsVal.undef
  | _, _ => JsVal.undef

/-- Maximum accepted text length (`MAX_TEXT_LENGTH = 10_000` in the route). -/
def MAX_TEXT_LENGTH : Nat := 10000

/-- The four validation failure kinds of the route's input-validation step. -/
inductive ValidationError where
  | malformedBody : ValidationError
  | missingOrInvalidText : ValidationError
  | emptyText : ValidationError
  | textTooLong : ValidationError
deriving DecidableEq

/-- The literal 400-response messages of `route.ts` for each validation error. -/
def validationMessage : ValidationError → String
  | ValidationError.malformedBody =>
      "Invalid request body. Expected JSON with a 'text' field."
  | ValidationError.missingOrInvalidText =>
      "Missing or invalid 'text' field. Expected a non-empty string."
  | ValidationError.emptyText =>
      "The 'text' field is empty after trimming whitespace."
  | ValidationError.textTooLong =>
      "Text exceeds maximum length of 10000 characters."

/-- Embedding of the input-validation section of `POST` in `route.ts`:
JSON parse failure, then `!text || typeof text !== "string"`, then the
empty-after-trim check, then the length check, in source order, each
short-circuiting.  The argument is the outcome of `await request.json()`
(`Except.error` = the parse threw).  The final `match` arm for a non-string
is unreachable: control reaches it only when `jsTypeofString text = true`. -/
def validateText (parsedBody : Except Unit JsVal) : Except ValidationError (List Char) :=
  match parsedBody with
  | Except.error _ => Except.error ValidationError.malformedBody
  | Except.ok body =>
    let text := getField body "text"
    if jsFalsy text || !jsTypeofString text then
      Except.error ValidationError.missingOrInvalidText
    else
      match text with
      | JsVal.str s =>
        let trimmedText := jsTrim s
        if jsLength trimmedText = 0 then
          Except.error ValidationError.emptyText
        else if MAX_TEXT_LENGTH < jsLength trimmedText then
          Except.error ValidationError.textTooLong
        else
          Except.ok trimmedText
      | _ => Except.error ValidationError.missingOrInvalidText

/-- Line item as returned by the extraction adapter (`ReceiptItemSchema` in
`lib/schemas/receipt.ts`: no `id` field — the adapter never assigns IDs). -/
structure CandidateItem where
  name : String
  price : ℚ
deriving DecidableEq

/-- Receipt candidate as returned by the extraction adapter (`ReceiptSchema`):
nullable store and date, items without IDs, numeric tax and total. -/
structure ReceiptCandidate where
  store : Option String
  date : Option String
  items : List CandidateItem
  tax : ℚ
  total : ℚ
deriving DecidableEq

/-- Enriched line item (`ReceiptItem` in `types/receipt.ts`): the `id` is
generated by the server, not by the adapter. -/
structure LineItem where
  id : String
  name : String
  price : ℚ
deriving DecidableEq

/-- The structured output (`Receipt` in `types/receipt.ts`). -/
structure Receipt where
  store : Option String
  date : Option String
  items : List LineItem
  tax : ℚ
  total : ℚ
deriving DecidableEq

/-- Outcome of the `openai.beta.chat.completions.parse` call in
`lib/openai.ts`: the promise either rejects with an error message, or
resolves with `completion.choices[0].message.parsed`, which may be `null`
(modelled as `none`) when the model refused or content was filtered. -/
inductive UpstreamOutcome where
  | throws (msg : String) : UpstreamOutcome
  | returns (parsed : Option ReceiptCandidate) : UpstreamOutcome

/-- The literal message of the error thrown by `parseReceiptText` on a null
parsed result. -/
def noDataMsg : String := "Failed to parse receipt: no data returned from AI"

/-- Embedding of `parseReceiptText` from `lib/openai.ts`.  A thrown JS error
is `Except.error` carrying its message.  The network call is the oracle
`outcome`; `crypto.randomUUID()` is modelled by drawing the item's entry from
the fresh-identifier supply `idGen` (one fresh identifier per mapped item, in
order).  On a null parsed result it throws `noDataMsg`; otherwise it maps the
candidate to a `Receipt`, adding an `id` to each item and copying every other
field unchanged. -/
def parseReceiptText (idGen : Nat → String) (ocrText : List Char)
    (outcome : UpstreamOutcome) : Except String Receipt :=
  match outcome with
  | UpstreamOutcome.throws msg => Except.error msg
  | UpstreamOutcome.returns none => Except.error noDataMsg
  | UpstreamOutcome.returns (some parsedReceipt) =>
      Except.ok
        { store := parsedReceipt.store
          date := parsedReceipt.date
          items := parsedReceipt.items.enum.map
            (fun p => { id := idGen p.1, name := p.2.name, price := p.2.price })
          tax := parsedReceipt.tax
          total := parsedReceipt.total }

/-- Stages of the `POST` orchestrator, in their fixed source order. -/
inductive Stage where
  | configCheck : Stage
  | rateCheck : Stage
  | validate : Stage
  | extractCall : Stage
deriving DecidableEq

/-- The full ordered stage sequence of the orchestrator. -/
def stageOrder : List Stage :=
  [Stage.configCheck, Stage.rateCheck, Stage.validate, Stage.extractCall]

/-- Incoming request as seen by `POST`: the `x-forwarded-for` header (absent
locally) and the outcome of `await request.json()`. -/
structure PostRequest where
  xForwardedFor : Option String
  body : Except Unit JsVal

/-- Response and effects of one `POST` call: HTTP status, the `error` string
of the JSON body (none on 200), the receipt payload (some on 200), the
Retry-After header in whole seconds (present on 429), the request log after
the call, and the trace of stages that ran. -/
structure PostResult where
  status : Nat
  errorBody : Option String
  receipt : Option Receipt
  retryAfterHeader : Option Int
  log : RateLog
  trace : List Stage

/-- Whether `!process.env.OPENAI_API_KEY` holds: the variable is unset, or
set to the (falsy) empty string. -/
def envKeyMissing : Option String → Bool
  | none => true
  | some s => s.isEmpty

/-- The literal 500-response message for a missing credential. -/
def configErrorMsg : String := "Server configuration error. Please try again later."

/-- The literal 429-response message. -/
def rateLimitedMsg : String := "Too many requests. Please wait before trying again."

/-- The literal generic 500-response message for extraction failures. -/
def extractionFailedMsg : String := "Failed to parse receipt. Please try again."

/-- Embedding of `Math.ceil(ms / 1000)` on integer milliseconds. -/
def msToRetryAfterSecs (ms : Int) : Int := -((-ms).fdiv 1000)

/-- Embedding of the `POST` handler of `app/api/parse-receipt/route.ts`.
Inputs: the `OPENAI_API_KEY` environment value, the fresh-identifier supply,
the extraction oracle, the request log (module state of `lib/rate-limit.ts`),
`Date.now()`, and the request.  The stages mirror the source's early-return
structure: config check, rate check (with `x-forwarded-for ?? "unknown"`),
input validation, then the `try`/`catch` around `parseReceiptText`; `trace`
records which stages ran, in order. -/
def POST (apiKey : Option String) (idGen : Nat → String) (outcome : UpstreamOutcome)
    (requestLog : RateLog) (now : Int) (request : PostRequest) : PostResult :=
  if envKeyMissing apiKey then
    { status := 500, errorBody := some configErrorMsg, receipt := none,
      retryAfterHeader := none, log := requestLog, trace := [Stage.configCheck] }
  else
    let clientIp := request.xForwardedFor.getD "unknown"
    let rateStep := checkRateLimit requestLog clientIp now
    if rateStep.1.allowed = false then
      { status := 429, errorBody := some rateLimitedMsg, receipt := none,
        retryAfterHeader := some (msToRetryAfterSecs (rateStep.1.retryAfterMs.getD 0)),
        log := rateStep.2, trace := [Stage.configCheck, Stage.rateCheck] }
    else
      match validateText request.body with
      | Except.error e =>
        { status := 400, errorBody := some (validationMessage e), receipt := none,
          retryAfterHeader := none, log := rateStep.2,
          trace := [Stage.configCheck, Stage.rateCheck, Stage.validate] }
      | Except.ok trimmedText =>
        match parseReceiptText idGen trimmedText outcome with
        | Except.error _ =>
          { status := 500, errorBody := some extractionFailedMsg, receipt := none,
            retryAfterHeader := none, log := rateStep.2, trace := stageOrder }
        | Except.ok receipt =>
          { status := 200, errorBody := none, receipt := some receipt,
            retryAfterHeader := none, log := rateStep.2, trace := stageOrder }

/-- Whether `pat` occurs at the start of `s` (character lists). -/
def startsWithChars : List Char → List Char → Bool
  | [], _ => true
  | _ :: _, [] => false
  | a :: as, b :: bs => a = b && startsWithChars as bs

/-- Whether `pat` occurs as a contiguous substring anywhere in `s`. -/
def occursIn (pat : List Char) : List Char → Bool
  | [] => startsWithChars pat []
  | s@(_ :: rest) => startsWithChars pat s || occursIn pat rest

/-- Concrete extraction candidate from the spec's first end-to-end scenario:
store Walmart, date 2024-01-15, one Milk line item at 3.99, tax 0.32,
total 4.31. -/
def walmartCandidate : ReceiptCandidate :=
  { store := some "Walmart"
    date := some "2024-01-15"
    items := [{ name := "Milk", price := 3.99 }]
    tax := 0.32
    total := 4.31 }

/-- The RateWindow data-model invariant of the spec, for one identity's
stored timestamp list: the sequence is monotonically non-decreasing
(insertion order = chronological order), and every stored timestamp is
within `WINDOW_MS` of the time `lastCompact` of the last compaction (the
most recent admitted call, which is the only event that rewrites the
stored list). -/
def RateWindowInv (ts : List Int) (lastCompact : Int) : Prop :=
  ts.Pairwise (· ≤ ·) ∧ ∀ t ∈ ts, lastCompact - t < WINDOW_MS ∧ t ≤ lastCompact
/-- Helper: the head (with default) of a nonempty sorted list is its minimum. -/
lemma headD_mem_and_min (l : List Int) (hl : l ≠ [])
    (hs : l.Pairwise (· ≤ ·)) : l.headD 0 ∈ l ∧ ∀ t ∈ l, l.headD 0 ≤ t := by
  cases l with
  | nil => exact absurd rfl hl
  | cons a tl =>
    refine ⟨List.mem_cons_self a tl, ?_⟩
    intro t ht
    rcases List.mem_cons.mp ht with h | h
    · exact h ▸ le_refl a
    · exact (List.pairwise_cons.mp hs).1 t h

/-- Helper: counts in the window filter. -/
lemma count_window_filter (l : List Int) (now t : Int) :
    ((l.filter (fun x => now - x < WINDOW_MS)).count t) =
      (if now - t < WINDOW_MS then l.count t else 0) := by
  by_cases h : now - t < WINDOW_MS
  · rw [if_pos h]
    exact List.count_filter (by simpa using h)
  · rw [if_neg h]
    refine List.count_eq_zero.mpr (fun hmem => ?_)
    rw [List.mem_filter] at hmem
    exact h (by simpa using hmem.2)

/-- C1: for every identity string and every current time `now`, `checkRateLimit`
first drops every stored entry whose age is at least `WINDOW_MS` (strict `<`
keeps an entry, so an entry exactly `WINDOW_MS` old is expired): the surviving
list `recent` is the order-preserving sublist holding exactly the strictly
in-window occurrences.  If the remaining count is at least `MAX_REQUESTS` the
call rejects with `retryAfterMs = WINDOW_MS - (now - oldest)` where `oldest`
is the oldest remaining entry (the minimum, which is the head of the stored
sequence when — as on every state reachable under a non-decreasing clock —
the sequence is sorted), leaving the log unchanged; otherwise it appends
`now`, persists the compacted list for this identity only, and admits. -/
theorem checkRateLimit_sliding_window (requestLog : RateLog) (ip : String) (now : Int)
    (hsorted : (requestLog ip).Pairwise (· ≤ ·)) :
    ∃ recent : List Int,
      List.Sublist recent (requestLog ip) ∧
      (∀ t : Int, recent.count t =
        if now - t < WINDOW_MS then (requestLog ip).count t else 0) ∧
      (if MAX_REQUESTS ≤ recent.length then
        (checkRateLimit requestLog ip now).1.allowed = false ∧
        (∃ oldest ∈ recent, (∀ t ∈ recent, oldest ≤ t) ∧
          (checkRateLimit requestLog ip now).1.retryAfterMs =
            some (WINDOW_MS - (now - oldest))) ∧
        (checkRateLimit requestLog ip now).2 = requestLog
      else
        (checkRateLimit requestLog ip now).1.allowed = true ∧
        (checkRateLimit requestLog ip now).1.retryAfterMs = none ∧
        (checkRateLimit requestLog ip now).2 ip =
          (requestLog ip).filter (fun x => now - x < WINDOW_MS) ++ [now] ∧
        (∀ j, j ≠ ip → (checkRateLimit requestLog ip now).2 j = requestLog j)) := by
  refine ⟨(requestLog ip).filter (fun x => now - x < WINDOW_MS),
    List.filter_sublist _, fun t => count_window_filter _ now t, ?_⟩
  by_cases hc : MAX_REQUESTS ≤ ((requestLog ip).filter (fun x => now - x < WINDOW_MS)).length
  · rw [if_pos hc]
    have hne : (requestLog ip).filter (fun x => now - x < WINDOW_MS) ≠ [] := by
      intro h
      rw [h] at hc
      simp [MAX_REQUESTS] at hc
    obtain ⟨hmem, hmin⟩ := headD_mem_and_min _ hne (hsorted.filter _)
    simp only [checkRateLimit]
    rw [if_pos hc]
    exact ⟨rfl, ⟨_, hmem, hmin, rfl⟩, rfl⟩
  · rw [if_neg hc]
    simp only [checkRateLimit]
    rw [if_neg hc]
    exact ⟨rfl, rfl, by simp, fun j hj => by simp [hj]⟩

/-- C2: for any identity whose stored sequence holds exactly `MAX_REQUESTS`
admitted timestamps, all within `WINDOW_MS` of `now`, the next call at `now`
is rejected with some `retryAfterMs = m > 0`, and a further call made `m`
milliseconds later, with no intervening requests from that identity, is
admitted. -/
theorem rateLimit_reject_then_admit (requestLog : RateLog) (ip : String) (now : Int)
    (hlen : (requestLog ip).length = MAX_REQUESTS)
    (hwin : ∀ t ∈ requestLog ip, now - t < WINDOW_MS) :
    ∃ m : Int, 0 < m ∧
      (checkRateLimit requestLog ip now).1 =
        { allowed := false, retryAfterMs := some m } ∧
      (checkRateLimit (checkRateLimit requestLog ip now).2 ip (now + m)).1.allowed = true := by
  have hfe : (requestLog ip).filter (fun x => now - x < WINDOW_MS) = requestLog ip :=
    List.filter_eq_self.mpr (fun a ha => by simpa using hwin a ha)
  have hne : requestLog ip ≠ [] := by
    intro h
    rw [h] at hlen
    simp [MAX_REQUESTS] at hlen
  have hhead : (requestLog ip).headD 0 ∈ requestLog ip := by
    cases hx : requestLog ip with
    | nil => exact absurd hx hne
    | cons a tl => simp [List.headD]
  have hc : MAX_REQUESTS ≤ ((requestLog ip).filter (fun x => now - x < WINDOW_MS)).length := by
    rw [hfe, hlen]
  refine ⟨WINDOW_MS - (now - (requestLog ip).headD 0), ?_, ?_, ?_⟩
  · have := hwin _ hhead
    omega
  · simp only [checkRateLimit]
    rw [if_pos hc, hfe]
  · have hlog2 : (checkRateLimit requestLog ip now).2 = requestLog := by
      simp only [checkRateLimit]
      rw [if_pos hc]
    rw [hlog2]
    set h0 := (requestLog ip).headD 0 with hh0
    have hlt : ((requestLog ip).filter
        (fun x => now + (WINDOW_MS - (now - h0)) - x < WINDOW_MS)).length <
        (requestLog ip).length := by
      refine List.length_filter_lt_length_iff_exists.mpr ⟨h0, hhead, ?_⟩
      simp only [decide_eq_true_eq]
      omega
    simp only [checkRateLimit]
    rw [if_neg (by omega)]

/-- C9: the RateWindow invariant — the stored timestamp sequence is
monotonically non-decreasing and every stored timestamp is within
`WINDOW_MS` of the time of the last compaction — holds of the initial empty
state and is preserved by every `checkRateLimit` call under a non-decreasing
clock: an admitted call at `now` purges all out-of-window entries and
re-establishes the invariant with `now` as the compaction time, while a
rejected call leaves the stored state unchanged (so the invariant persists
with the previous compaction time). -/
theorem rateWindow_invariant (requestLog : RateLog) (ip : String) (now c : Int)
    (hc : c ≤ now) (hinv : RateWindowInv (requestLog ip) c) :
    RateWindowInv (emptyLog ip) now ∧
    ((checkRateLimit requestLog ip now).1.allowed = true →
      RateWindowInv ((checkRateLimit requestLog ip now).2 ip) now) ∧
    ((checkRateLimit requestLog ip now).1.allowed = false →
      (checkRateLimit requestLog ip now).2 = requestLog ∧
      RateWindowInv ((checkRateLimit requestLog ip now).2 ip) c) := by
  obtain ⟨hsorted, hbound⟩ := hinv
  refine ⟨⟨List.Pairwise.nil, by simp [emptyLog]⟩, ?_, ?_⟩
  · intro hall
    by_cases hcond : MAX_REQUESTS ≤
        ((requestLog ip).filter (fun x => now - x < WINDOW_MS)).length
    · exfalso
      simp only [checkRateLimit] at hall
      rw [if_pos hcond] at hall
      simp at hall
    · simp only [checkRateLimit]
      rw [if_neg hcond]
      simp only [if_true]
      constructor
      · rw [List.pairwise_append]
        refine ⟨hsorted.filter _, List.pairwise_singleton _ _, ?_⟩
        intro a ha b hb
        rw [List.mem_singleton] at hb
        subst hb
        have := (hbound a (List.mem_of_mem_filter ha)).2
        omega
      · intro t ht
        rcases List.mem_append.mp ht with h | h
        · have h2 := List.mem_filter.mp h
          refine ⟨by simpa using h2.2, ?_⟩
          have := (hbound t h2.1).2
          omega
        · rw [List.mem_singleton] at h
          subst h
          exact ⟨by simp [WINDOW_MS], le_refl _⟩
  · intro hall
    by_cases hcond : MAX_REQUESTS ≤
        ((requestLog ip).filter (fun x => now - x < WINDOW_MS)).length
    · have hlog : (checkRateLimit requestLog ip now).2 = requestLog := by
        simp only [checkRateLimit]
        rw [if_pos hcond]
      exact ⟨hlog, by rw [hlog]; exact ⟨hsorted, hbound⟩⟩
    · exfalso
      simp only [checkRateLimit] at hall
      rw [if_neg hcond] at hall
      simp at hall

/-- C10: the per-identity window is persisted exactly on admission.  First, a
rejected `checkRateLimit` call leaves the whole request log unchanged.
Second, a timestamp `t` present in an identity's stored array survives any
later call made while `t` is still in-window — an admitted timestamp is
never removed for the rest of the window.  Third, at the orchestrator level,
a request that is admitted by the rate check but then fails body validation
(400) or extraction (500) still leaves the admitted timestamp `now` in the
stored array, consuming one of the identity's `MAX_REQUESTS` slots. -/
theorem rateLimit_slot_consumed (requestLog : RateLog) (ip : String)
    (now now' t : Int) (apiKey : Option String) (idGen : Nat → String)
    (outcome : UpstreamOutcome) (request : PostRequest) :
    ((checkRateLimit requestLog ip now).1.allowed = false →
      (checkRateLimit requestLog ip now).2 = requestLog) ∧
    (t ∈ requestLog ip → now' - t < WINDOW_MS →
      t ∈ (checkRateLimit requestLog ip now').2 ip) ∧
    (envKeyMissing apiKey = false →
      (checkRateLimit requestLog (request.xForwardedFor.getD "unknown") now).1.allowed = true →
      ((∃ e, validateText request.body = Except.error e) ∨
        (∃ s, validateText request.body = Except.ok s ∧
          ∃ msg, parseReceiptText idGen s outcome = Except.error msg)) →
      ((POST apiKey idGen outcome requestLog now request).status = 400 ∨
        (POST apiKey idGen outcome requestLog now request).status = 500) ∧
      (POST apiKey idGen outcome requestLog now request).log =
        (checkRateLimit requestLog (request.xForwardedFor.getD "unknown") now).2 ∧
      now ∈ (POST apiKey idGen outcome requestLog now request).log
        (request.xForwardedFor.getD "unknown")) := by
  refine ⟨?_, ?_, ?_⟩
  · intro hrej
    by_cases hcond : MAX_REQUESTS ≤
        ((requestLog ip).filter (fun x => now - x < WINDOW_MS)).length
    · simp only [checkRateLimit]
      rw [if_pos hcond]
    · exfalso
      simp only [checkRateLimit] at hrej
      rw [if_neg hcond] at hrej
      simp at hrej
  · intro hmem hwin
    by_cases hcond : MAX_REQUESTS ≤
        ((requestLog ip).filter (fun x => now' - x < WINDOW_MS)).length
    · simp only [checkRateLimit]
      rw [if_pos hcond]
      exact hmem
    · simp only [checkRateLimit]
      rw [if_neg hcond]
      simp only [if_true]
      refine List.mem_append.mpr (Or.inl ?_)
      exact List.mem_filter.mpr ⟨hmem, by simpa using hwin⟩
  · intro hk hallow hfail
    have hadm : (checkRateLimit requestLog (request.xForwardedFor.getD "unknown") now).2
        (request.xForwardedFor.getD "unknown") =
        ((requestLog (request.xForwardedFor.getD "unknown")).filter
          (fun x => now - x < WINDOW_MS)) ++ [now] := by
      by_cases hcond : MAX_REQUESTS ≤
          ((requestLog (request.xForwardedFor.getD "unknown")).filter
            (fun x => now - x < WINDOW_MS)).length
      · exfalso
        simp only [checkRateLimit] at hallow
        rw [if_pos hcond] at hallow
        simp at hallow
      · simp only [checkRateLimit]
        rw [if_neg hcond]
        simp
    rcases hfail with ⟨e, hve⟩ | ⟨s, hvs, msg, hpe⟩
    · simp only [POST, hk, Bool.false_eq_true, if_false, hallow, hve]
      simp [hadm]
    · simp only [POST, hk, Bool.false_eq_true, if_false, hallow, hvs, hpe]
      simp [hadm]

/-- helper: dropWhile keeps some non-p element if one exists -/
lemma exists_not_p_in_dropWhile (p : Char → Bool) :
    ∀ (s : List Char) (c : Char), c ∈ s → p c = false →
      ∃ x ∈ s.dropWhile p, p x = false := by
  intro s
  induction s with
  | nil => intro c hc _; simp at hc
  | cons a tl ih =>
    intro c hc hpc
    rw [List.dropWhile_cons]
    by_cases hpa : p a = true
    · rw [if_pos hpa]
      rcases List.mem_cons.mp hc with h | h
      · subst h
        rw [hpc] at hpa
        exact absurd hpa (by simp)
      · exact ih c h hpc
    · rw [if_neg hpa]
      exact ⟨a, List.mem_cons_self a tl, by simpa using hpa⟩

/-- helper: text with non-whitespace content trims to a nonempty string -/
lemma jsTrim_ne_nil (s : List Char) (c : Char) (hc : c ∈ s)
    (hw : jsWhitespace c = false) : jsTrim s ≠ [] := by
  intro h
  unfold jsTrim at h
  rw [List.reverse_eq_nil_iff, List.dropWhile_eq_nil_iff] at h
  obtain ⟨x, hx, hpx⟩ := exists_not_p_in_dropWhile jsWhitespace s c hc hw
  have := h x (List.mem_reverse.mpr hx)
  rw [hpx] at this
  exact absurd this (by simp)

/-- C5 (amended): the validator's checks run in the listed order, each
short-circuiting, and for every request whose body parses as JSON with a
`text` field of string type, if the text is NONEMPTY and trims to the empty
string then validation fails with the `emptyText` error; the empty string
`""` itself is instead caught by the earlier falsiness check
(`!text`) and yields `missingOrInvalidText`. -/
theorem validate_empty_after_trim (s : List Char) (hne : s ≠ [])
    (htrim : jsTrim s = []) :
    validateText (Except.ok (JsVal.obj [("text", JsVal.str s)])) =
      Except.error ValidationError.emptyText ∧
    validateText (Except.ok (JsVal.obj [("text", JsVal.str [])])) =
      Except.error ValidationError.missingOrInvalidText := by
  refine ⟨?_, rfl⟩
  obtain ⟨a, tl, rfl⟩ := List.exists_cons_of_ne_nil hne
  simp [validateText, getField, jsFalsy, jsTypeofString, htrim, jsLength]

/-- C5 counterexample: the claim as stated fails at `text = ""`: a JSON body
whose `text` field is the empty string (which trims to the empty string) is
rejected with `missingOrInvalidText`, not with the `emptyText` error the
claim predicts — in JavaScript `""` is falsy, so `!text` fires first. -/
theorem validate_empty_string_counter :
    validateText (Except.ok (JsVal.obj [("text", JsVal.str "".toList)])) =
      Except.error ValidationError.missingOrInvalidText ∧
    ValidationError.missingOrInvalidText ≠ ValidationError.emptyText :=
  ⟨rfl, by decide⟩

/-- C6: for every request whose `text` field is a string with non-whitespace
content, the trimmed length (measured, like the source's `.length`, in
UTF-16 code units) is at least 1, and validation succeeds whenever the
trimmed length is at most `MAX_TEXT_LENGTH = 10000` (the request proceeds
with the trimmed text), while a trimmed length exceeding 10000 fails
validation with the `textTooLong` error, whose 400-response message
mentions the length limit; length is measured after trimming. -/
theorem validate_length_bounds (s : List Char)
    (hcontent : ∃ c ∈ s, jsWhitespace c = false) :
    1 ≤ jsLength (jsTrim s) ∧
    (jsLength (jsTrim s) ≤ MAX_TEXT_LENGTH →
      validateText (Except.ok (JsVal.obj [("text", JsVal.str s)])) =
        Except.ok (jsTrim s)) ∧
    (MAX_TEXT_LENGTH < jsLength (jsTrim s) →
      validateText (Except.ok (JsVal.obj [("text", JsVal.str s)])) =
        Except.error ValidationError.textTooLong ∧
      validationMessage ValidationError.textTooLong =
        "Text exceeds maximum length of 10000 characters.") := by
  obtain ⟨c, hc, hw⟩ := hcontent
  have htne : jsTrim s ≠ [] := jsTrim_ne_nil s c hc hw
  have hsne : s ≠ [] := by
    intro h
    subst h
    exact htne rfl
  obtain ⟨a, tl, rfl⟩ := List.exists_cons_of_ne_nil hsne
  have hlen1 : 1 ≤ jsLength (jsTrim (a :: tl)) := by
    cases hx : jsTrim (a :: tl) with
    | nil => exact absurd hx htne
    | cons b bs =>
      have hb : 1 ≤ utf16Units b := by
        unfold utf16Units
        split <;> omega
      simp only [jsLength, List.map_cons, List.sum_cons]
      omega
  refine ⟨hlen1, ?_, ?_⟩
  · intro hle
    simp [validateText, getField, jsFalsy, jsTypeofString]
    rw [if_neg (by omega), if_neg (by omega)]
  · intro hgt
    refine ⟨?_, rfl⟩
    simp [validateText, getField, jsFalsy, jsTypeofString]
    rw [if_neg (by omega), if_pos hgt]

/-- C3: for every request handled by the `POST` orchestrator the executed
stages form a prefix of the fixed order `configCheck, rateCheck, validate,
extractCall`, no stage is ever retried (the trace has no duplicates), and
the extraction adapter is invoked exactly when the configuration check, the
rate-limit check and validation all succeeded — never for a request on
which an earlier stage failed. -/
theorem orchestrator_stage_order (apiKey : Option String) (idGen : Nat → String)
    (outcome : UpstreamOutcome) (requestLog : RateLog) (now : Int)
    (request : PostRequest) :
    (∃ k, (POST apiKey idGen outcome requestLog now request).trace = stageOrder.take k) ∧
    (POST apiKey idGen outcome requestLog now request).trace.Nodup ∧
    (Stage.extractCall ∈ (POST apiKey idGen outcome requestLog now request).trace ↔
      (envKeyMissing apiKey = false ∧
       (checkRateLimit requestLog (request.xForwardedFor.getD "unknown") now).1.allowed = true ∧
       ∃ s, validateText request.body = Except.ok s)) := by
  by_cases hk : envKeyMissing apiKey
  · refine ⟨⟨1, ?_⟩, ?_, ?_⟩ <;> simp [POST, hk, stageOrder]
  · simp only [Bool.not_eq_true] at hk
    by_cases hallow : (checkRateLimit requestLog (request.xForwardedFor.getD "unknown") now).1.allowed = true
    · cases hv : validateText request.body with
      | error e =>
        refine ⟨⟨3, ?_⟩, ?_, ?_⟩ <;>
          simp [POST, hk, hallow, hv, stageOrder]
      | ok s =>
        cases hp : parseReceiptText idGen s outcome with
        | error msg =>
          refine ⟨⟨4, ?_⟩, ?_, ?_⟩ <;>
            simp [POST, hk, hallow, hv, hp, stageOrder]
        | ok r =>
          refine ⟨⟨4, ?_⟩, ?_, ?_⟩ <;>
            simp [POST, hk, hallow, hv, hp, stageOrder]
    · simp only [Bool.not_eq_true] at hallow
      refine ⟨⟨2, ?_⟩, ?_, ?_⟩ <;>
        simp [POST, hk, hallow, stageOrder]

/-- helper: startsWithChars is transitive along extension -/
lemma startsWithChars_trans : ∀ p q r : List Char,
    startsWithChars p q = true → startsWithChars q r = true →
    startsWithChars p r = true := by
  intro p
  induction p with
  | nil => intro q r _ _; rfl
  | cons a as ih =>
    intro q r hpq hqr
    cases q with
    | nil => simp [startsWithChars] at hpq
    | cons b bs =>
      cases r with
      | nil => simp [startsWithChars] at hqr
      | cons c cs =>
        simp only [startsWithChars, Bool.and_eq_true, decide_eq_true_eq] at hpq hqr ⊢
        exact ⟨hpq.1.trans hqr.1, ih bs cs hpq.2 hqr.2⟩

/-- helper: a substring occurrence of q is an occurrence of any beginning of q -/
lemma occursIn_mono (p q : List Char) : ∀ m : List Char,
    startsWithChars p q = true → occursIn q m = true → occursIn p m = true := by
  intro m hpq
  induction m with
  | nil =>
    intro h
    exact startsWithChars_trans p q [] hpq h
  | cons a rest ih =>
    intro h
    simp only [occursIn, Bool.or_eq_true] at h ⊢
    rcases h with h | h
    · exact Or.inl (startsWithChars_trans p q (a :: rest) hpq h)
    · exact Or.inr (ih h)

/-- C4: for every upstream failure the caller-visible error body is a fixed
generic string that does not depend on the underlying error: an adapter
throw with an arbitrary message yields the constant `extractionFailedMsg`
and produces a response identical to the one for a null-candidate failure
(so the response carries no information about the underlying error), an
absent credential yields the constant `configErrorMsg`, and no
credential-shaped substring (any string beginning with `"sk-"`) occurs in
either fixed body. -/
theorem upstream_error_sanitized (apiKey : Option String) (idGen : Nat → String)
    (requestLog : RateLog) (now : Int) (request : PostRequest)
    (outcome : UpstreamOutcome) (msg : String) :
    ((envKeyMissing apiKey = false) →
      (checkRateLimit requestLog (request.xForwardedFor.getD "unknown") now).1.allowed = true →
      (∀ s, validateText request.body = Except.ok s →
        (POST apiKey idGen (UpstreamOutcome.throws msg) requestLog now request).status = 500 ∧
        (POST apiKey idGen (UpstreamOutcome.throws msg) requestLog now request).errorBody =
          some extractionFailedMsg ∧
        POST apiKey idGen (UpstreamOutcome.throws msg) requestLog now request =
          POST apiKey idGen (UpstreamOutcome.returns none) requestLog now request)) ∧
    (envKeyMissing apiKey = true →
      (POST apiKey idGen outcome requestLog now request).status = 500 ∧
      (POST apiKey idGen outcome requestLog now request).errorBody = some configErrorMsg) ∧
    (∀ sub : List Char, startsWithChars "sk-".toList sub = true →
      occursIn sub extractionFailedMsg.toList = false ∧
      occursIn sub configErrorMsg.toList = false) := by
  refine ⟨?_, ?_, ?_⟩
  · intro hk hallow s hv
    refine ⟨?_, ?_, ?_⟩ <;>
      simp [POST, hk, hallow, hv, parseReceiptText]
  · intro hk
    exact ⟨by simp [POST, hk], by simp [POST, hk]⟩
  · intro sub hsub
    constructor
    · by_contra h
      rw [Bool.not_eq_false] at h
      have := occursIn_mono "sk-".toList sub extractionFailedMsg.toList hsub h
      revert this
      decide
    · by_contra h
      rw [Bool.not_eq_false] at h
      have := occursIn_mono "sk-".toList sub configErrorMsg.toList hsub h
      revert this
      decide

/-- C7: for every request that passes validation, when the structured
extraction call returns no candidate (a null parsed result)
`parseReceiptText` raises the explicit no-data error, and the orchestrator
handles it and returns a 500 response with the generic extraction-failed
message and no receipt — an explicit handled null-result case, not a
crash. -/
theorem null_candidate_handled (apiKey : Option String) (idGen : Nat → String)
    (requestLog : RateLog) (now : Int) (request : PostRequest) (s : List Char)
    (hk : envKeyMissing apiKey = false)
    (hallow : (checkRateLimit requestLog (request.xForwardedFor.getD "unknown") now).1.allowed = true)
    (hv : validateText request.body = Except.ok s) :
    parseReceiptText idGen s (UpstreamOutcome.returns none) = Except.error noDataMsg ∧
    (POST apiKey idGen (UpstreamOutcome.returns none) requestLog now request).status = 500 ∧
    (POST apiKey idGen (UpstreamOutcome.returns none) requestLog now request).errorBody =
      some extractionFailedMsg ∧
    (POST apiKey idGen (UpstreamOutcome.returns none) requestLog now request).receipt = none := by
  refine ⟨rfl, ?_, ?_, ?_⟩ <;> simp [POST, hk, hallow, hv, parseReceiptText]

/-- C8: for every extraction candidate with `N` line items, enrichment
produces a receipt with exactly `N` items, where the `i`-th item carries the
`i`-th freshly generated identifier — distinct (assuming the generator,
modelling `crypto.randomUUID()`, yields pairwise-distinct values) and
non-empty — and each item's `name` and `price`, as well as the candidate's
`store`, `date`, `tax` and `total`, are unchanged from the candidate. -/
theorem enrichment_pure (idGen : Nat → String) (ocrText : List Char)
    (cand : ReceiptCandidate)
    (hinj : ∀ i j, i < cand.items.length → j < cand.items.length →
      idGen i = idGen j → i = j)
    (hne : ∀ i, i < cand.items.length → idGen i ≠ "") :
    ∃ r : Receipt,
      parseReceiptText idGen ocrText (UpstreamOutcome.returns (some cand)) =
        Except.ok r ∧
      r.items.length = cand.items.length ∧
      (∀ i (hi : i < r.items.length) (hi2 : i < cand.items.length),
        (r.items.get ⟨i, hi⟩).name = (cand.items.get ⟨i, hi2⟩).name ∧
        (r.items.get ⟨i, hi⟩).price = (cand.items.get ⟨i, hi2⟩).price ∧
        (r.items.get ⟨i, hi⟩).id = idGen i ∧
        (r.items.get ⟨i, hi⟩).id ≠ "") ∧
      (r.items.map LineItem.id).Nodup ∧
      r.store = cand.store ∧ r.date = cand.date ∧
      r.tax = cand.tax ∧ r.total = cand.total := by
  refine ⟨_, rfl, ?_, ?_, ?_, rfl, rfl, rfl, rfl⟩
  · simp [List.enum_length]
  · intro i hi hi2
    simp only [List.get_eq_getElem, List.getElem_map, List.getElem_enum]
    exact ⟨by trivial, by trivial, by trivial, hne i hi2⟩
  · have hmap : (cand.items.enum.map
        (fun p => ({ id := idGen p.1, name := p.2.name, price := p.2.price } : LineItem))).map
          LineItem.id = (List.range cand.items.length).map idGen := by
      rw [List.map_map]
      have : (LineItem.id ∘ fun p : Nat × CandidateItem =>
          ({ id := idGen p.1, name := p.2.name, price := p.2.price } : LineItem)) =
          idGen ∘ Prod.fst := rfl
      rw [this, ← List.map_map, List.enum_map_fst]
    rw [hmap]
    refine List.Nodup.map_on ?_ (List.nodup_range _)
    intro x hx y hy hxy
    rw [List.mem_range] at hx hy
    exact hinj x y hx hy hxy
/-- Witness for C8: the spec's Walmart example — one line item, enriched with
one fresh non-empty identifier and unchanged fields. -/
theorem enrichment_pure_witness :
    ∃ r : Receipt,
      parseReceiptText (fun i => "id-" ++ toString i) ['x']
        (UpstreamOutcome.returns (some walmartCandidate)) = Except.ok r ∧
      r.items.length = walmartCandidate.items.length ∧
      (∀ i (hi : i < r.items.length) (hi2 : i < walmartCandidate.items.length),
        (r.items.get ⟨i, hi⟩).name = (walmartCandidate.items.get ⟨i, hi2⟩).name ∧
        (r.items.get ⟨i, hi⟩).price = (walmartCandidate.items.get ⟨i, hi2⟩).price ∧
        (r.items.get ⟨i, hi⟩).id = (fun i => "id-" ++ toString i) i ∧
        (r.items.get ⟨i, hi⟩).id ≠ "") ∧
      (r.items.map LineItem.id).Nodup ∧
      r.store = walmartCandidate.store ∧ r.date = walmartCandidate.date ∧
      r.tax = walmartCandidate.tax ∧ r.total = walmartCandidate.total :=
  enrichment_pure (fun i => "id-" ++ toString i) ['x'] walmartCandidate
    (fun i j hi hj _ => by
      simp only [walmartCandidate, List.length_cons, List.length_nil] at hi hj
      omega)
    (fun i hi => by
      simp only [walmartCandidate, List.length_cons, List.length_nil] at hi
      have h0 : i = 0 := by omega
      subst h0
      decide)

/-- Witness for C1: instantiated at the empty log, identity "a", time 0. -/
theorem checkRateLimit_sliding_window_witness :
    ∃ recent : List Int,
      List.Sublist recent (emptyLog "a") ∧
      (∀ t : Int, recent.count t =
        if (0 : Int) - t < WINDOW_MS then (emptyLog "a").count t else 0) ∧
      (if MAX_REQUESTS ≤ recent.length then
        (checkRateLimit emptyLog "a" 0).1.allowed = false ∧
        (∃ oldest ∈ recent, (∀ t ∈ recent, oldest ≤ t) ∧
          (checkRateLimit emptyLog "a" 0).1.retryAfterMs =
            some (WINDOW_MS - ((0 : Int) - oldest))) ∧
        (checkRateLimit emptyLog "a" 0).2 = emptyLog
      else
        (checkRateLimit emptyLog "a" 0).1.allowed = true ∧
        (checkRateLimit emptyLog "a" 0).1.retryAfterMs = none ∧
        (checkRateLimit emptyLog "a" 0).2 "a" =
          (emptyLog "a").filter (fun x => (0 : Int) - x < WINDOW_MS) ++ [(0 : Int)] ∧
        (∀ j, j ≠ "a" → (checkRateLimit emptyLog "a" 0).2 j = emptyLog j)) :=
  checkRateLimit_sliding_window emptyLog "a" 0 (by simp [emptyLog])

/-- Witness for C2: ten admitted requests at time 0, an eleventh at time 0. -/
theorem rateLimit_reject_then_admit_witness :
    ∃ m : Int, 0 < m ∧
      (checkRateLimit (fun _ => List.replicate 10 (0 : Int)) "a" 0).1 =
        { allowed := false, retryAfterMs := some m } ∧
      (checkRateLimit (checkRateLimit (fun _ => List.replicate 10 (0 : Int)) "a" 0).2 "a"
        (0 + m)).1.allowed = true :=
  rateLimit_reject_then_admit (fun _ => List.replicate 10 (0 : Int)) "a" 0
    (by decide) (by decide)

/-- Witness for C9: the invariant at compaction time 0, call at time 0. -/
theorem rateWindow_invariant_witness :
    RateWindowInv (emptyLog "a") 0 ∧
    ((checkRateLimit emptyLog "a" 0).1.allowed = true →
      RateWindowInv ((checkRateLimit emptyLog "a" 0).2 "a") 0) ∧
    ((checkRateLimit emptyLog "a" 0).1.allowed = false →
      (checkRateLimit emptyLog "a" 0).2 = emptyLog ∧
      RateWindowInv ((checkRateLimit emptyLog "a" 0).2 "a") 0) :=
  rateWindow_invariant emptyLog "a" 0 0 (le_refl 0)
    ⟨List.Pairwise.nil, by simp [emptyLog]⟩

/-- Witness for C10: a rejected call leaves the log unchanged; an in-window
timestamp survives a later admitted call; an admitted-then-failed request
still has its timestamp stored. -/
theorem rateLimit_slot_consumed_witness :
    (checkRateLimit (fun _ => List.replicate 10 (0 : Int)) "a" 5).2 =
      (fun _ => List.replicate 10 (0 : Int)) ∧
    (0 : Int) ∈ (checkRateLimit (fun _ => [(0 : Int)]) "a" 5).2 "a" ∧
    (((POST (some "k") (fun i => toString i) (UpstreamOutcome.returns none) emptyLog 0
        { xForwardedFor := none,
          body := Except.ok (JsVal.obj [("text", JsVal.str ['h', 'i'])]) }).status = 400 ∨
      (POST (some "k") (fun i => toString i) (UpstreamOutcome.returns none) emptyLog 0
        { xForwardedFor := none,
          body := Except.ok (JsVal.obj [("text", JsVal.str ['h', 'i'])]) }).status = 500) ∧
    (POST (some "k") (fun i => toString i) (UpstreamOutcome.returns none) emptyLog 0
        { xForwardedFor := none,
          body := Except.ok (JsVal.obj [("text", JsVal.str ['h', 'i'])]) }).log =
      (checkRateLimit emptyLog "unknown" 0).2 ∧
    (0 : Int) ∈ (POST (some "k") (fun i => toString i) (UpstreamOutcome.returns none) emptyLog 0
        { xForwardedFor := none,
          body := Except.ok (JsVal.obj [("text", JsVal.str ['h', 'i'])]) }).log "unknown") :=
  ⟨(rateLimit_slot_consumed (fun _ => List.replicate 10 (0 : Int)) "a" 5 5 0 (some "k")
      (fun i => toString i) (UpstreamOutcome.returns none)
      { xForwardedFor := none,
        body := Except.ok (JsVal.obj [("text", JsVal.str ['h', 'i'])]) }).1 (by decide),
   (rateLimit_slot_consumed (fun _ => [(0 : Int)]) "a" 5 5 0 (some "k")
      (fun i => toString i) (UpstreamOutcome.returns none)
      { xForwardedFor := none,
        body := Except.ok (JsVal.obj [("text", JsVal.str ['h', 'i'])]) }).2.1
      (by decide) (by decide),
   (rateLimit_slot_consumed emptyLog "a" 0 0 0 (some "k")
      (fun i => toString i) (UpstreamOutcome.returns none)
      { xForwardedFor := none,
        body := Except.ok (JsVal.obj [("text", JsVal.str ['h', 'i'])]) }).2.2
      (by decide) (by decide)
      (Or.inr ⟨['h', 'i'], rfl, noDataMsg, rfl⟩)⟩

/-- Witness for C5 (amended): a single space trims to empty and yields the
emptyText error, while the empty string yields missingOrInvalidText. -/
theorem validate_empty_after_trim_witness :
    validateText (Except.ok (JsVal.obj [("text", JsVal.str [' '])])) =
      Except.error ValidationError.emptyText ∧
    validateText (Except.ok (JsVal.obj [("text", JsVal.str [])])) =
      Except.error ValidationError.missingOrInvalidText :=
  validate_empty_after_trim [' '] (by decide) (by decide)

/-- Witness for C6: the two-character text "hi" passes validation. -/
theorem validate_length_bounds_witness :
    1 ≤ jsLength (jsTrim ['h', 'i']) ∧
    validateText (Except.ok (JsVal.obj [("text", JsVal.str ['h', 'i'])])) =
      Except.ok (jsTrim ['h', 'i']) :=
  ⟨(validate_length_bounds ['h', 'i'] ⟨'h', by decide, by decide⟩).1,
   (validate_length_bounds ['h', 'i'] ⟨'h', by decide, by decide⟩).2.1 (by decide)⟩

/-- Witness for C3: a fully successful request runs all four stages. -/
theorem orchestrator_stage_order_witness :
    (∃ k, (POST (some "k") (fun i => toString i) (UpstreamOutcome.returns none) emptyLog 0
      { xForwardedFor := none,
        body := Except.ok (JsVal.obj [("text", JsVal.str ['h', 'i'])]) }).trace =
        stageOrder.take k) ∧
    (POST (some "k") (fun i => toString i) (UpstreamOutcome.returns none) emptyLog 0
      { xForwardedFor := none,
        body := Except.ok (JsVal.obj [("text", JsVal.str ['h', 'i'])]) }).trace.Nodup ∧
    (Stage.extractCall ∈ (POST (some "k") (fun i => toString i)
        (UpstreamOutcome.returns none) emptyLog 0
      { xForwardedFor := none,
        body := Except.ok (JsVal.obj [("text", JsVal.str ['h', 'i'])]) }).trace ↔
      (envKeyMissing (some "k") = false ∧
       (checkRateLimit emptyLog "unknown" 0).1.allowed = true ∧
       ∃ s, validateText (Except.ok (JsVal.obj [("text", JsVal.str ['h', 'i'])])) =
         Except.ok s)) :=
  orchestrator_stage_order (some "k") (fun i => toString i)
    (UpstreamOutcome.returns none) emptyLog 0
    { xForwardedFor := none,
      body := Except.ok (JsVal.obj [("text", JsVal.str ['h', 'i'])]) }

/-- Witness for C4: an adapter throw whose message embeds a credential gets
the fixed generic body, identical to a null-candidate failure; a missing
credential gets the fixed config body; the credential-shaped string
"sk-abc123" occurs in neither fixed body. -/
theorem upstream_error_sanitized_witness :
    (POST (some "k") (fun i => toString i)
        (UpstreamOutcome.throws "Request failed: invalid API key sk-abc123") emptyLog 0
        { xForwardedFor := none,
          body := Except.ok (JsVal.obj [("text", JsVal.str ['h', 'i'])]) }).status = 500 ∧
    (POST (some "k") (fun i => toString i)
        (UpstreamOutcome.throws "Request failed: invalid API key sk-abc123") emptyLog 0
        { xForwardedFor := none,
          body := Except.ok (JsVal.obj [("text", JsVal.str ['h', 'i'])]) }).errorBody =
      some extractionFailedMsg ∧
    POST (some "k") (fun i => toString i)
        (UpstreamOutcome.throws "Request failed: invalid API key sk-abc123") emptyLog 0
        { xForwardedFor := none,
          body := Except.ok (JsVal.obj [("text", JsVal.str ['h', 'i'])]) } =
      POST (some "k") (fun i => toString i) (UpstreamOutcome.returns none) emptyLog 0
        { xForwardedFor := none,
          body := Except.ok (JsVal.obj [("text", JsVal.str ['h', 'i'])]) } ∧
    (POST none (fun i => toString i) (UpstreamOutcome.returns none) emptyLog 0
        { xForwardedFor := none,
          body := Except.ok (JsVal.obj [("text", JsVal.str ['h', 'i'])]) }).errorBody =
      some configErrorMsg ∧
    occursIn "sk-abc123".toList extractionFailedMsg.toList = false ∧
    occursIn "sk-abc123".toList configErrorMsg.toList = false :=
  ⟨((upstream_error_sanitized (some "k") (fun i => toString i) emptyLog 0
      { xForwardedFor := none,
        body := Except.ok (JsVal.obj [("text", JsVal.str ['h', 'i'])]) }
      (UpstreamOutcome.returns none) "Request failed: invalid API key sk-abc123").1
      (by decide) (by decide) ['h', 'i'] rfl).1,
   ((upstream_error_sanitized (some "k") (fun i => toString i) emptyLog 0
      { xForwardedFor := none,
        body := Except.ok (JsVal.obj [("text", JsVal.str ['h', 'i'])]) }
      (UpstreamOutcome.returns none) "Request failed: invalid API key sk-abc123").1
      (by decide) (by decide) ['h', 'i'] rfl).2.1,
   ((upstream_error_sanitized (some "k") (fun i => toString i) emptyLog 0
      { xForwardedFor := none,
        body := Except.ok (JsVal.obj [("text", JsVal.str ['h', 'i'])]) }
      (UpstreamOutcome.returns none) "Request failed: invalid API key sk-abc123").1
      (by decide) (by decide) ['h', 'i'] rfl).2.2,
   ((upstream_error_sanitized none (fun i => toString i) emptyLog 0
      { xForwardedFor := none,
        body := Except.ok (JsVal.obj [("text", JsVal.str ['h', 'i'])]) }
      (UpstreamOutcome.returns none) "x").2.1 (by decide)).2,
   ((upstream_error_sanitized (some "k") (fun i => toString i) emptyLog 0
      { xForwardedFor := none,
        body := Except.ok (JsVal.obj [("text", JsVal.str ['h', 'i'])]) }
      (UpstreamOutcome.returns none) "x").2.2 "sk-abc123".toList (by decide)).1,
   ((upstream_error_sanitized (some "k") (fun i => toString i) emptyLog 0
      { xForwardedFor := none,
        body := Except.ok (JsVal.obj [("text", JsVal.str ['h', 'i'])]) }
      (UpstreamOutcome.returns none) "x").2.2 "sk-abc123".toList (by decide)).2⟩

/-- Witness for C7: a validated request with a null extraction candidate gets
the handled 500 extraction-failed response. -/
theorem null_candidate_handled_witness :
    parseReceiptText (fun i => toString i) ['h', 'i'] (UpstreamOutcome.returns none) =
      Except.error noDataMsg ∧
    (POST (some "k") (fun i => toString i) (UpstreamOutcome.returns none) emptyLog 0
      { xForwardedFor := none,
        body := Except.ok (JsVal.obj [("text", JsVal.str ['h', 'i'])]) }).status = 500 ∧
    (POST (some "k") (fun i => toString i) (UpstreamOutcome.returns none) emptyLog 0
      { xForwardedFor := none,
        body := Except.ok (JsVal.obj [("text", JsVal.str ['h', 'i'])]) }).errorBody =
      some extractionFailedMsg ∧
    (POST (some "k") (fun i => toString i) (UpstreamOutcome.returns none) emptyLog 0
      { xForwardedFor := none,
        body := Except.ok (JsVal.obj [("text", JsVal.str ['h', 'i'])]) }).receipt = none :=
  null_candidate_handled (some "k") (fun i => toString i) emptyLog 0
    { xForwardedFor := none,
      body := Except.ok (JsVal.obj [("text", JsVal.str ['h', 'i'])]) }
    ['h', 'i'] (by decide) (by decide) rfl
